import Mathlib

/-
Verification development for the telegram-converter media-job orchestrator.

Each Python function that a claim depends on is shallowly embedded as an
executable Lean definition.  Python floats are modelled as exact rationals,
Python ints as Lean integers or naturals, and fallible code as Except values.
-/

namespace TgConv

/-- Truncation toward zero of a rational number, the semantics of the Python
builtin int() applied to a float value. -/
def ratTrunc (q : ℚ) : ℤ :=
  if 0 ≤ q then ⌊q⌋ else ⌈q⌉

theorem ratTrunc_lt_iff (q : ℚ) (z : ℤ) (hz : 0 < z) : ratTrunc q < z ↔ q < (z : ℚ) := by
  unfold ratTrunc
  split
  · exact Int.floor_lt
  · rename_i h
    push_neg at h
    constructor
    · intro _
      exact lt_of_lt_of_le h (by exact_mod_cast hz.le)
    · intro _
      have hc : ⌈q⌉ ≤ (0 : ℤ) := Int.ceil_le.mpr (by exact_mod_cast h.le)
      exact lt_of_le_of_lt hc hz

theorem ratTrunc_nonneg_eq_floor (q : ℚ) (h : 0 ≤ q) : ratTrunc q = ⌊q⌋ := by
  simp [ratTrunc, h]

-- ══════════════════════════════════════════════════════════════════
-- compress_to_size  (src/bot/processors/ffmpeg.py)
-- ══════════════════════════════════════════════════════════════════

/-- Errors raised by compress_to_size before the external encoder is started. -/
inductive CompressError where
  | durationUnknown
  | targetTooSmall (minViableMb : ℤ)
  deriving Repr, DecidableEq

/-- The encoder invocation parameters computed by compress_to_size.  A value of
this type is produced exactly when the function reaches the ffmpeg command
construction, i.e. exactly when the external encoder process is invoked. -/
structure CompressPlan where
  videoBitrate : ℤ
  maxrate : ℤ
  bufsize : ℤ
  deriving Repr, DecidableEq

/-- Fixed audio bitrate constant from compress_to_size (128 kbps). -/
def audioBitrate : ℤ := 128000

/-- Minimum viable video bitrate floor from compress_to_size (80 kbps). -/
def minVideoBitrate : ℤ := 80000

/-- The minimum viable size in megabytes reported by the TargetTooSmall error:
int(duration * (80000 + 128000) / 8 / 1024 / 1024) + 1. -/
def minViableMb (duration : ℚ) : ℤ :=
  ratTrunc (duration * (80000 + 128000) / 8 / 1024 / 1024) + 1

/-- The video bitrate computed by compress_to_size:
int(target_mb * 1024 * 1024 * 8 * 0.95 / duration - 128000). -/
def compressVideoBitrate (duration target_mb : ℚ) : ℤ :=
  ratTrunc (target_mb * 1024 * 1024 * 8 * (95 / 100) / duration - 128000)

/-- Shallow embedding of compress_to_size (src/bot/processors/ffmpeg.py).
A duration of at most 0 raises before anything else; a computed video bitrate
below the 80 kbps floor raises TargetTooSmall; otherwise the ffmpeg command is
built from the returned plan and the external encoder runs.  The subprocess
itself is outside the model: an .error result means it is never spawned. -/
def compress_to_size (duration target_mb : ℚ) : Except CompressError CompressPlan :=
  if duration ≤ 0 then .error .durationUnknown
  else if compressVideoBitrate duration target_mb < minVideoBitrate then
    .error (.targetTooSmall (minViableMb duration))
  else
    .ok { videoBitrate := compressVideoBitrate duration target_mb
          maxrate := ratTrunc ((compressVideoBitrate duration target_mb : ℚ) * (3 / 2))
          bufsize := compressVideoBitrate duration target_mb * 2 }

/-- Claim C1: for probed duration d greater than 0 and any target size t in
megabytes, compress_to_size computes the target video bitrate as
t*1024*1024*8*0.95/d - 128000 (truncated to an integer), and it fails with
TargetTooSmall reporting the minimum viable size, without invoking the
external encoder, exactly when that bitrate is below the 80 kbps floor. -/
theorem compress_bitrate_and_floor (duration target_mb : ℚ) (hd : 0 < duration) :
    (∀ plan, compress_to_size duration target_mb = .ok plan →
        plan.videoBitrate = ratTrunc (target_mb * 1024 * 1024 * 8 * (95 / 100) / duration - 128000)) ∧
    (compress_to_size duration target_mb = .error (.targetTooSmall (minViableMb duration)) ↔
        target_mb * 1024 * 1024 * 8 * (95 / 100) / duration - 128000 < 80000) := by
  have hd0 : ¬ duration ≤ 0 := not_le.mpr hd
  constructor
  · intro plan hplan
    unfold compress_to_size at hplan
    rw [if_neg hd0] at hplan
    split at hplan
    · exact absurd hplan (by simp)
    · exact (congrArg CompressPlan.videoBitrate ((Except.ok.injEq _ _).mp hplan)).symm
  · unfold compress_to_size
    rw [if_neg hd0]
    rw [show (80000 : ℚ) = ((80000 : ℤ) : ℚ) by norm_num]
    rw [← ratTrunc_lt_iff _ 80000 (by norm_num)]
    by_cases hb : compressVideoBitrate duration target_mb < minVideoBitrate
    · rw [if_pos hb]
      simp only [compressVideoBitrate, minVideoBitrate] at hb ⊢
      simp [hb]
    · rw [if_neg hb]
      simp only [compressVideoBitrate, minVideoBitrate] at hb ⊢
      simp [hb]

/-- Witness for compress_bitrate_and_floor: a 60 second video with a 1 MB
target computes a bitrate far below the floor and fails with TargetTooSmall
reporting 2 MB. -/
theorem compress_bitrate_and_floor_witness :
    (0 : ℚ) < 60 ∧
    ((∀ plan, compress_to_size 60 1 = .ok plan →
        plan.videoBitrate = ratTrunc ((1 : ℚ) * 1024 * 1024 * 8 * (95 / 100) / 60 - 128000)) ∧
    (compress_to_size 60 1 = .error (.targetTooSmall (minViableMb 60)) ↔
        (1 : ℚ) * 1024 * 1024 * 8 * (95 / 100) / 60 - 128000 < 80000)) :=
  ⟨by norm_num, compress_bitrate_and_floor 60 1 (by norm_num)⟩

/-- Claim C10 (code bug): the minimum viable size reported by the
TargetTooSmall error is not itself achievable.  For an 80 second video, a 1 MB
target fails reporting a 2 MB minimum, yet a 2 MB target for the same video
still computes a video bitrate of 71229 bps, below the 80000 bps floor, and
fails again with the same TargetTooSmall error. -/
theorem min_viable_size_not_achievable :
    compress_to_size 80 1 = .error (.targetTooSmall 2) ∧
    compress_to_size 80 2 = .error (.targetTooSmall 2) ∧
    compressVideoBitrate 80 2 = 71229 := by
  have hmv : minViableMb 80 = 2 := by norm_num [minViableMb, ratTrunc]
  have hb1 : compressVideoBitrate 80 1 = -28385 := by
    rw [compressVideoBitrate,
      show ((1 : ℚ) * 1024 * 1024 * 8 * (95 / 100) / 80 - 128000) =
        7969177.6 / 80 - 128000 by norm_num,
      ratTrunc, if_neg (by norm_num), Int.ceil_eq_iff]
    norm_num
  have hb2 : compressVideoBitrate 80 2 = 71229 := by
    norm_num [compressVideoBitrate, ratTrunc]
  refine ⟨?_, ?_, hb2⟩
  · unfold compress_to_size
    rw [if_neg (by norm_num), if_pos (by rw [hb1]; norm_num [minVideoBitrate]), hmv]
  · unfold compress_to_size
    rw [if_neg (by norm_num), if_pos (by rw [hb2]; norm_num [minVideoBitrate]), hmv]

-- ══════════════════════════════════════════════════════════════════
-- Job registry  (src/bot/utils/queue.py)
-- ══════════════════════════════════════════════════════════════════

/-- One entry of the global JOBS dict.  The Python key named type is rendered
as jobType; task holds the opaque cancellation handle. -/
structure Job where
  job_id : String
  user_id : ℕ
  username : String
  jobType : String
  desc : String
  status : String
  started : ℚ
  task : Option ℕ
  deriving Repr, DecidableEq

/-- The global JOBS mapping, modelled as an association list. -/
def JobMap := List (String × Job)

/-- Python dict lookup JOBS.get(job_id). -/
def dictGet (m : JobMap) (k : String) : Option Job :=
  match m with
  | [] => none
  | (k2, v) :: rest => if k2 = k then some v else dictGet rest k

/-- Python dict assignment JOBS[job_id] = job: inserts, silently replacing any
existing entry under the same key. -/
def dictInsert (m : JobMap) (k : String) (v : Job) : JobMap :=
  (k, v) :: m.filter (fun p => p.1 != k)

/-- Shallow embedding of register (src/bot/utils/queue.py).  It builds the job
dict with status "starting…" and assigns JOBS[job_id] = job unconditionally;
there is no failure path. -/
def register (jobs : JobMap) (job_id : String) (user_id : ℕ)
    (username jobType desc : String) (now : ℚ) : JobMap × Job :=
  let job : Job :=
    { job_id := job_id, user_id := user_id, username := username, jobType := jobType,
      desc := desc, status := "starting…", started := now, task := none }
  (dictInsert jobs job_id job, job)

theorem dictGet_insert (m : JobMap) (k : String) (v : Job) :
    dictGet (dictInsert m k v) k = some v := by
  simp [dictGet, dictInsert]

/-- Claim C2 (counterexample): register does not fail when the id already
exists.  Registering the same id twice succeeds both times, the second call
silently overwrites the first job, and the initial status string is
"starting…", not "starting". -/
theorem register_duplicate_id_succeeds :
    (dictGet (register [] "ab12cd34" 1 "alice" "leech" "first" 0).1 "ab12cd34").isSome = true ∧
    (register (register [] "ab12cd34" 1 "alice" "leech" "first" 0).1
        "ab12cd34" 2 "bob" "burn" "second" 5).2.desc = "second" ∧
    dictGet (register (register [] "ab12cd34" 1 "alice" "leech" "first" 0).1
        "ab12cd34" 2 "bob" "burn" "second" 5).1 "ab12cd34" =
      some (register (register [] "ab12cd34" 1 "alice" "leech" "first" 0).1
        "ab12cd34" 2 "bob" "burn" "second" 5).2 ∧
    (register [] "ab12cd34" 1 "alice" "leech" "first" 0).2.status ≠ "starting" := by
  refine ⟨rfl, rfl, ?_, by decide⟩
  exact dictGet_insert _ _ _

/-- Claim C2 (amended): register(id, owner, kind, description) never fails: it
always succeeds, stores the new job under the id (silently overwriting any
existing job with that id), and the status field of the new job starts as
"starting…". -/
theorem register_always_succeeds (jobs : JobMap) (job_id : String) (user_id : ℕ)
    (username jobType desc : String) (now : ℚ) :
    (register jobs job_id user_id username jobType desc now).2.status = "starting…" ∧
    dictGet (register jobs job_id user_id username jobType desc now).1 job_id =
      some (register jobs job_id user_id username jobType desc now).2 :=
  ⟨rfl, dictGet_insert _ _ _⟩

-- ══════════════════════════════════════════════════════════════════
-- Temp-file naming  (config.py, processors/leech.py, processors/ffmpeg.py,
-- handlers/workflow.py)
-- ══════════════════════════════════════════════════════════════════

/-- One entry of the per-user STATE dict (handlers/workflow.py). -/
structure SessionData where
  state : String
  source : String
  file_id : String
  file_name : String
  file_size : ℕ
  url : String
  mode : String
  deriving Repr, DecidableEq

/-- Keyboard mode selected by _video_accepted for a source kind. -/
def modeFor (source : String) : String :=
  if source = "upload" then "upload"
  else if source = "ytdlp" then "m3u8"
  else if source = "magnet" then "magnet"
  else "direct"

/-- Shallow embedding of _video_accepted (handlers/workflow.py): a new source
always overwrites the whole session entry and moves it to choosing_operation. -/
def video_accepted (source file_id file_name : String) (file_size : ℕ)
    (url : String) : SessionData :=
  { state := "choosing_operation", source := source, file_id := file_id,
    file_name := file_name, file_size := file_size, url := url,
    mode := modeFor source }

/-- The value of data.get("source") for data = STATE.get(uid, empty dict):
empty when the user has no session entry. -/
def sessionSource : Option SessionData → String
  | none => ""
  | some d => d.source

/-- Observable outcome of the operation_chosen callback handler. -/
inductive CbOutcome where
  | cancelled
  | backShown
  | sessionExpired
  | leechStarted
  | awaitingSubtitle
  | awaitingResolution
  | ignored
  deriving Repr, DecidableEq

/-- Shallow embedding of operation_chosen (handlers/workflow.py).  Returns the
outcome together with the new session entry of the pressing user.  The leech
branch pops the session entry before the download job starts executing. -/
def operation_chosen (st : Option SessionData) (op : String) :
    CbOutcome × Option SessionData :=
  if op = "cancel" then (.cancelled, none)
  else if op = "back" then (.backShown, st)
  else
    match st with
    | none => (.sessionExpired, none)
    | some d =>
      if d.source = "" then (.sessionExpired, some d)
      else if op = "leech" then (.leechStarted, none)
      else if op = "subtitles" then
        (.awaitingSubtitle, some { d with state := "waiting_for_subtitle" })
      else if op = "resolution" then
        (.awaitingResolution, some { d with state := "choosing_resolution" })
      else (.ignored, some d)

/-- Resolution preset keys (config.py RESOLUTIONS). -/
def RESOLUTIONS : List String := ["360p", "480p", "720p", "1080p", "1440p", "4K"]

/-- Observable outcome of the resolution_chosen callback handler. -/
inductive ResOutcome where
  | sessionExpired
  | conversionStarted
  deriving Repr, DecidableEq

/-- Shallow embedding of resolution_chosen (handlers/workflow.py): the session
entry is popped unconditionally before the checks, and conversion starts only
for a known resolution key with a recorded source. -/
def resolution_chosen (st : Option SessionData) (res_key : String) :
    ResOutcome × Option SessionData :=
  if res_key ∈ RESOLUTIONS ∧ sessionSource st ≠ "" then (.conversionStarted, none)
  else (.sessionExpired, none)

/-- Per-user slice of the mutable state touched by the compress feature:
the workflow STATE entry, the COMPRESS_STATE entry and WAITING_COMPRESS
membership (handlers/features.py). -/
structure FeatureState where
  session : Option SessionData
  compress : Option SessionData
  waiting : Bool
  deriving Repr, DecidableEq

/-- Observable outcome of the features callback handlers. -/
inductive FeatOutcome where
  | sessionExpired
  | promptShown
  | started
  deriving Repr, DecidableEq

/-- Shallow embedding of cb_compress (handlers/features.py): it copies the
session entry into COMPRESS_STATE and marks the user as waiting for a target
size, but leaves the workflow STATE entry in place. -/
def cb_compress (fs : FeatureState) : FeatOutcome × FeatureState :=
  if sessionSource fs.session = "" then (.sessionExpired, fs)
  else (.promptShown, { fs with compress := fs.session, waiting := true })

/-- State effect of the compress target-size message being accepted:
features_text_input pops WAITING_COMPRESS and _run_compress pops
COMPRESS_STATE as the job starts executing; the workflow STATE entry is not
touched (handlers/features.py). -/
def compress_begun (fs : FeatureState) : FeatureState :=
  { fs with waiting := false, compress := none }

/-- Shallow embedding of the session guard of cb_mediainfo
(handlers/features.py); the STATE entry is read, never popped. -/
def cb_mediainfo (fs : FeatureState) : FeatOutcome × FeatureState :=
  if sessionSource fs.session = "" then (.sessionExpired, fs)
  else (.started, fs)

/-- Shallow embedding of the session guard of cb_streams
(handlers/features.py); like cb_mediainfo, the STATE entry is read, never
popped. -/
def cb_streams (fs : FeatureState) : FeatOutcome × FeatureState :=
  if sessionSource fs.session = "" then (.sessionExpired, fs)
  else (.started, fs)

/-- Supported subtitle extensions (config.py SUBTITLE_EXTENSIONS). -/
def SUBTITLE_EXTENSIONS : List String := [".srt", ".ass", ".ssa", ".vtt", ".sub", ".txt"]

/-- The value of data.get("state") for data = STATE.get(uid, empty dict). -/
def sessionState : Option SessionData → String
  | none => ""
  | some d => d.state

/-- The routing guard of recv_file and recv_text (handlers/workflow.py): a
subtitle event is dispatched to _process_subtitle only while the session is in
the waiting_for_subtitle state. -/
def subtitle_routed (st : Option SessionData) (ext : String) : Prop :=
  sessionState st = "waiting_for_subtitle" ∧ ext ∈ SUBTITLE_EXTENSIONS

instance (st : Option SessionData) (ext : String) : Decidable (subtitle_routed st ext) :=
  inferInstanceAs (Decidable (_ ∧ _))

/-- Observable outcome of _process_subtitle. -/
inductive SubOutcome where
  | unsupportedFormat
  | burnStarted
  deriving Repr, DecidableEq

/-- Shallow embedding of _process_subtitle (handlers/workflow.py):
data = STATE.pop(uid, empty dict) clears the session entry unconditionally
before anything else; an unsupported extension aborts, otherwise the burn job
begins executing. -/
def process_subtitle (st : Option SessionData) (ext : String) :
    SubOutcome × Option SessionData :=
  (if ext ∈ SUBTITLE_EXTENSIONS then .burnStarted else .unsupportedFormat, none)

/-- Holds when an operation-choice outcome means the choice was accepted and
acted upon rather than rejected or ignored. -/
def acceptedOutcome (o : CbOutcome) : Prop :=
  o = .leechStarted ∨ o = .awaitingSubtitle ∨ o = .awaitingResolution

/-- Claim C5: an operation-choice event with no recorded source is rejected as
session-expired (in the workflow handler and in the features handlers), and
after a new-source event, which stores the source and moves the session to
choosing-operation, an operation-choice event is accepted. -/
theorem operation_choice_requires_source (st : Option SessionData) (op : String)
    (src file_id file_name : String) (file_size : ℕ) (url : String)
    (hc : op ≠ "cancel") (hb : op ≠ "back") (hsrc : src ≠ "")
    (hop : op = "leech" ∨ op = "subtitles" ∨ op = "resolution") :
    (sessionSource st = "" → (operation_chosen st op).1 = .sessionExpired) ∧
    (sessionSource st = "" → (cb_compress ⟨st, none, false⟩).1 = .sessionExpired) ∧
    (sessionSource st = "" → (cb_mediainfo ⟨st, none, false⟩).1 = .sessionExpired) ∧
    (video_accepted src file_id file_name file_size url).source = src ∧
    (video_accepted src file_id file_name file_size url).state = "choosing_operation" ∧
    acceptedOutcome
      (operation_chosen (some (video_accepted src file_id file_name file_size url)) op).1 := by
  refine ⟨?_, ?_, ?_, rfl, rfl, ?_⟩
  · intro hempty
    unfold operation_chosen
    rw [if_neg hc, if_neg hb]
    cases st with
    | none => rfl
    | some d => simp only [sessionSource] at hempty; simp [hempty]
  · intro hempty
    simp [cb_compress, hempty]
  · intro hempty
    simp [cb_mediainfo, hempty]
  · unfold operation_chosen
    rw [if_neg hc, if_neg hb]
    simp only [video_accepted]
    rcases hop with h | h | h <;> subst h <;> simp [acceptedOutcome, hsrc]

/-- Witness for operation_choice_requires_source: user with no session presses
a button and is rejected; after an upload source event the same press starts
the operation. -/
theorem operation_choice_requires_source_witness :
    (sessionSource none = "" → (operation_chosen none "leech").1 = .sessionExpired) ∧
    (sessionSource none = "" → (cb_compress ⟨none, none, false⟩).1 = .sessionExpired) ∧
    (sessionSource none = "" → (cb_mediainfo ⟨none, none, false⟩).1 = .sessionExpired) ∧
    (video_accepted "upload" "fid1" "v.mp4" 100 "").source = "upload" ∧
    (video_accepted "upload" "fid1" "v.mp4" 100 "").state = "choosing_operation" ∧
    acceptedOutcome
      (operation_chosen (some (video_accepted "upload" "fid1" "v.mp4" 100 "")) "leech").1 :=
  operation_choice_requires_source none "leech" "upload" "fid1" "v.mp4" 100 ""
    (by decide) (by decide) (by decide) (Or.inl rfl)

/-- A concrete session produced by an upload new-source event. -/
def demoSession : SessionData := video_accepted "upload" "fid1" "v.mp4" 100 ""

/-- Claim C6 (counterexample): the compress trigger is not single-shot.  After
a compress choice is made and the compress job begins executing, the workflow
session entry is still in place, so pressing the compress button again on the
stale message is accepted and re-prompts instead of being rejected as
session-expired. -/
theorem compress_trigger_not_single_shot :
    (cb_compress ⟨some demoSession, none, false⟩).1 = .promptShown ∧
    (cb_compress (compress_begun (cb_compress ⟨some demoSession, none, false⟩).2)).1
      = .promptShown ∧
    (cb_compress (compress_begun (cb_compress ⟨some demoSession, none, false⟩).2)).1
      ≠ .sessionExpired := by
  refine ⟨rfl, rfl, by decide⟩

/-- Claim C6 (amended): the leech and resolution operations clear the session
entry the moment execution begins, so a second identical trigger is rejected
as session-expired; the subtitle-burn handler pops the session entry when the
burn begins, so a second subtitle event is no longer routed to it; the
compress, mediainfo and streams triggers leave the workflow session entry in
place, so a second identical compress press is accepted and re-prompts rather
than being rejected. -/
theorem clear_on_execute_single_shot (st : Option SessionData) (k ext : String)
    (fs : FeatureState) (hsrc : sessionSource st ≠ "") (hk : k ∈ RESOLUTIONS)
    (hext : ext ∈ SUBTITLE_EXTENSIONS) (hfs : sessionSource fs.session ≠ "") :
    (operation_chosen st "leech").1 = .leechStarted ∧
    (operation_chosen st "leech").2 = none ∧
    (operation_chosen (operation_chosen st "leech").2 "leech").1 = .sessionExpired ∧
    (resolution_chosen st k).1 = .conversionStarted ∧
    (resolution_chosen st k).2 = none ∧
    (resolution_chosen (resolution_chosen st k).2 k).1 = .sessionExpired ∧
    subtitle_routed (operation_chosen st "subtitles").2 ext ∧
    (process_subtitle (operation_chosen st "subtitles").2 ext).1 = .burnStarted ∧
    (process_subtitle (operation_chosen st "subtitles").2 ext).2 = none ∧
    ¬ subtitle_routed (process_subtitle (operation_chosen st "subtitles").2 ext).2 ext ∧
    (cb_mediainfo fs).2 = fs ∧
    (cb_streams fs).2 = fs ∧
    (cb_compress (compress_begun (cb_compress fs).2)).1 = .promptShown := by
  have hres1 : (resolution_chosen st k).1 = .conversionStarted := by
    unfold resolution_chosen
    rw [if_pos ⟨hk, hsrc⟩]
  obtain ⟨d, rfl⟩ : ∃ d, st = some d := by
    cases st with
    | none => exact absurd rfl hsrc
    | some d => exact ⟨d, rfl⟩
  simp only [sessionSource] at hsrc
  have hleech : (operation_chosen (some d) "leech").2 = none := by
    simp [operation_chosen, hsrc]
  have hleech1 : (operation_chosen (some d) "leech").1 = .leechStarted := by
    simp [operation_chosen, hsrc]
  have hres : (resolution_chosen (some d) k).2 = none := by
    unfold resolution_chosen
    split <;> rfl
  have hsub : (operation_chosen (some d) "subtitles").2 =
      some { d with state := "waiting_for_subtitle" } := by
    simp [operation_chosen, hsrc]
  refine ⟨hleech1, hleech, ?_, hres1, hres, ?_, ?_, ?_, rfl, ?_, ?_, ?_, ?_⟩
  · rw [hleech]; rfl
  · rw [hres]
    simp [resolution_chosen, sessionSource]
  · rw [hsub]
    exact ⟨rfl, hext⟩
  · rw [process_subtitle, if_pos hext]
  · rintro ⟨hstate, _⟩
    rw [show (process_subtitle (operation_chosen (some d) "subtitles").2 ext).2
        = none from rfl] at hstate
    exact absurd hstate (by decide)
  · unfold cb_mediainfo
    split <;> rfl
  · unfold cb_streams
    split <;> rfl
  · have h1 : (cb_compress fs).2 = { fs with compress := fs.session, waiting := true } := by
      unfold cb_compress
      rw [if_neg hfs]
    rw [h1]
    have h3 : sessionSource
        (compress_begun { fs with compress := fs.session, waiting := true }).session ≠ "" := hfs
    unfold cb_compress
    rw [if_neg h3]

/-- Witness for clear_on_execute_single_shot at a concrete upload session,
the 720p resolution key and an srt subtitle. -/
theorem clear_on_execute_single_shot_witness :
    (operation_chosen (some demoSession) "leech").1 = .leechStarted ∧
    (operation_chosen (some demoSession) "leech").2 = none ∧
    (operation_chosen (operation_chosen (some demoSession) "leech").2 "leech").1
      = .sessionExpired ∧
    (resolution_chosen (some demoSession) "720p").1 = .conversionStarted ∧
    (resolution_chosen (some demoSession) "720p").2 = none ∧
    (resolution_chosen (resolution_chosen (some demoSession) "720p").2 "720p").1
      = .sessionExpired ∧
    subtitle_routed (operation_chosen (some demoSession) "subtitles").2 ".srt" ∧
    (process_subtitle (operation_chosen (some demoSession) "subtitles").2 ".srt").1
      = .burnStarted ∧
    (process_subtitle (operation_chosen (some demoSession) "subtitles").2 ".srt").2
      = none ∧
    ¬ subtitle_routed
        (process_subtitle (operation_chosen (some demoSession) "subtitles").2 ".srt").2
        ".srt" ∧
    (cb_mediainfo ⟨some demoSession, none, false⟩).2 = ⟨some demoSession, none, false⟩ ∧
    (cb_streams ⟨some demoSession, none, false⟩).2 = ⟨some demoSession, none, false⟩ ∧
    (cb_compress (compress_begun
        (cb_compress ⟨some demoSession, none, false⟩).2)).1 = .promptShown :=
  clear_on_execute_single_shot (some demoSession) "720p" ".srt"
    ⟨some demoSession, none, false⟩ (by decide) (by decide) (by decide) (by decide)

-- ══════════════════════════════════════════════════════════════════
-- Encoder selection  (_pick_encoder, src/bot/processors/ffmpeg.py)
-- ══════════════════════════════════════════════════════════════════

/-- An encoder name together with its extra ffmpeg argument list. -/
structure EncoderChoice where
  name : String
  args : List String
  deriving Repr, DecidableEq

/-- Default preset from config.py. -/
def FFMPEG_PRESET : String := "ultrafast"

/-- Default CRF from config.py. -/
def FFMPEG_CRF : String := "23"

/-- The NVENC profile stored when the NVIDIA trial encode succeeds. -/
def nvencChoice : EncoderChoice :=
  ⟨"h264_nvenc", ["-preset", "p1", "-tune", "ll", "-rc", "vbr", "-cq", "23"]⟩

/-- The VAAPI profile stored when the VAAPI trial encode succeeds. -/
def vaapiChoice : EncoderChoice :=
  ⟨"h264_vaapi", ["-vaapi_device", "/dev/dri/renderD128",
    "-vf", "format=nv12,hwupload", "-qp", "23"]⟩

/-- The libx264 software fallback profile, parameterised by preset, crf and
thread count. -/
def libx264Choice (preset crf threads : String) : EncoderChoice :=
  ⟨"libx264", ["-preset", preset, "-tune", "zerolatency", "-crf", crf,
    "-threads", threads, "-thread_type", "slice+frame", "-x264-params",
    "ref=1:bframes=0:weightp=0:subme=0:me=dia:trellis=0:8x8dct=0:fast-pskip=1:aq-mode=0:mixed-refs=0:rc-lookahead=0:mbtree=0:sync-lookahead=0:sliced-threads=1"]⟩

/-- The Python expression preset or FFMPEG_PRESET (an empty string also falls
back to the default). -/
def presetOrDefault : Option String → String
  | none => FFMPEG_PRESET
  | some s => if s = "" then FFMPEG_PRESET else s

/-- The Python expression str(crf) if crf is not None else FFMPEG_CRF. -/
def crfOrDefault : Option ℕ → String
  | none => FFMPEG_CRF
  | some n => toString n

/-- Host capabilities observed by the trial encodes, plus the cpu count used
for the software thread argument. -/
structure HwEnv where
  nvencOk : Bool
  vaapiOk : Bool
  cpuThreads : String
  deriving Repr, DecidableEq

/-- Result of one _pick_encoder call: the chosen profile, the value of the
process-wide _ENCODER_CACHE after the call, and how many trial encodes ran. -/
structure PickResult where
  choice : EncoderChoice
  cache : Option EncoderChoice
  probes : ℕ
  deriving Repr, DecidableEq

/-- Shallow embedding of _pick_encoder (src/bot/processors/ffmpeg.py).  The
cache is consulted only when neither preset nor crf override is given;
otherwise the NVENC and VAAPI trial encodes run, a succeeding hardware probe
stores its fixed profile in the global cache and returns it (ignoring any
override), and only the libx264 fallback uses the override arguments, caching
the result only when no override was given. -/
def pick_encoder (preset : Option String) (crf : Option ℕ)
    (cache : Option EncoderChoice) (env : HwEnv) : PickResult :=
  if h : preset = none ∧ crf = none ∧ cache.isSome then
    { choice := cache.get h.2.2, cache := cache, probes := 0 }
  else if env.nvencOk then
    { choice := nvencChoice, cache := some nvencChoice, probes := 1 }
  else if env.vaapiOk then
    { choice := vaapiChoice, cache := some vaapiChoice, probes := 2 }
  else
    { choice := libx264Choice (presetOrDefault preset) (crfOrDefault crf) env.cpuThreads
      cache := if preset = none ∧ crf = none then
          some (libx264Choice (presetOrDefault preset) (crfOrDefault crf) env.cpuThreads)
        else cache
      probes := 2 }

/-- Claim C8 (counterexample): supplying a per-job preset override does not
bypass probing and does not keep the result out of the process-wide cache.
With an NVENC-capable host, an empty cache and the override preset "fast", the
call runs a trial encode, returns the fixed NVENC argument set that ignores
the override, and stores it in the global cache. -/
theorem override_does_not_bypass_probing :
    (pick_encoder (some "fast") none none ⟨true, false, "8"⟩).probes ≠ 0 ∧
    "fast" ∉ (pick_encoder (some "fast") none none ⟨true, false, "8"⟩).choice.args ∧
    (pick_encoder (some "fast") none none ⟨true, false, "8"⟩).cache ≠ none := by
  refine ⟨by decide, by decide, by decide⟩

/-- Claim C8 (amended): without an override, a cached choice is returned with
no probing, and the first probe caches its winner, which later calls reuse;
with an override, the cache is not consulted but probing still runs: a
succeeding hardware probe yields its fixed profile and overwrites the global
cache (ignoring the override), and only the software fallback uses the
override argument set, in which case the cache is left unchanged. -/
theorem encoder_cache_and_override (c : EncoderChoice) (env : HwEnv)
    (cache : Option EncoderChoice) (preset : Option String) (crf : Option ℕ)
    (hov : preset ≠ none ∨ crf ≠ none) :
    pick_encoder none none (some c) env = { choice := c, cache := some c, probes := 0 } ∧
    (pick_encoder none none none env).cache = some (pick_encoder none none none env).choice ∧
    1 ≤ (pick_encoder none none none env).probes ∧
    pick_encoder none none (pick_encoder none none none env).cache env =
      { choice := (pick_encoder none none none env).choice,
        cache := (pick_encoder none none none env).cache, probes := 0 } ∧
    (pick_encoder preset crf cache env).choice = (pick_encoder preset crf none env).choice ∧
    1 ≤ (pick_encoder preset crf cache env).probes ∧
    (env.nvencOk = true →
      (pick_encoder preset crf cache env).choice = nvencChoice ∧
      (pick_encoder preset crf cache env).cache = some nvencChoice) ∧
    (env.nvencOk = false → env.vaapiOk = true →
      (pick_encoder preset crf cache env).choice = vaapiChoice ∧
      (pick_encoder preset crf cache env).cache = some vaapiChoice) ∧
    (env.nvencOk = false → env.vaapiOk = false →
      (pick_encoder preset crf cache env).choice =
        libx264Choice (presetOrDefault preset) (crfOrDefault crf) env.cpuThreads ∧
      (pick_encoder preset crf cache env).cache = cache) := by
  have hov2 : ¬ (preset = none ∧ crf = none ∧ (cache : Option EncoderChoice).isSome) := by
    rintro ⟨h1, h2, _⟩
    rcases hov with h | h
    · exact h h1
    · exact h h2
  have hov3 : ¬ (preset = none ∧ crf = none ∧ (none : Option EncoderChoice).isSome) := by
    rintro ⟨_, _, h3⟩
    simp at h3
  have hov4 : ¬ (preset = none ∧ crf = none) := by
    rintro ⟨h1, h2⟩
    rcases hov with h | h
    · exact h h1
    · exact h h2
  obtain ⟨nv, va, th⟩ := env
  refine ⟨by simp [pick_encoder], ?_, ?_, ?_, ?_, ?_, ?_, ?_, ?_⟩ <;>
    cases nv <;> cases va <;>
      simp [pick_encoder, hov2, hov3, hov4]

/-- Witness for encoder_cache_and_override: NVENC-capable host, a stale VAAPI
cache entry and an override preset "fast". -/
theorem encoder_cache_and_override_witness :
    pick_encoder none none (some nvencChoice) ⟨true, false, "8"⟩ =
      { choice := nvencChoice, cache := some nvencChoice, probes := 0 } ∧
    (pick_encoder none none none ⟨true, false, "8"⟩).cache =
      some (pick_encoder none none none ⟨true, false, "8"⟩).choice ∧
    1 ≤ (pick_encoder none none none ⟨true, false, "8"⟩).probes ∧
    pick_encoder none none (pick_encoder none none none ⟨true, false, "8"⟩).cache
        ⟨true, false, "8"⟩ =
      { choice := (pick_encoder none none none ⟨true, false, "8"⟩).choice,
        cache := (pick_encoder none none none ⟨true, false, "8"⟩).cache, probes := 0 } ∧
    (pick_encoder (some "fast") none (some vaapiChoice) ⟨true, false, "8"⟩).choice =
      (pick_encoder (some "fast") none none ⟨true, false, "8"⟩).choice ∧
    1 ≤ (pick_encoder (some "fast") none (some vaapiChoice) ⟨true, false, "8"⟩).probes ∧
    ((⟨true, false, "8"⟩ : HwEnv).nvencOk = true →
      (pick_encoder (some "fast") none (some vaapiChoice) ⟨true, false, "8"⟩).choice
        = nvencChoice ∧
      (pick_encoder (some "fast") none (some vaapiChoice) ⟨true, false, "8"⟩).cache
        = some nvencChoice) ∧
    ((⟨true, false, "8"⟩ : HwEnv).nvencOk = false →
      (⟨true, false, "8"⟩ : HwEnv).vaapiOk = true →
      (pick_encoder (some "fast") none (some vaapiChoice) ⟨true, false, "8"⟩).choice
        = vaapiChoice ∧
      (pick_encoder (some "fast") none (some vaapiChoice) ⟨true, false, "8"⟩).cache
        = some vaapiChoice) ∧
    ((⟨true, false, "8"⟩ : HwEnv).nvencOk = false →
      (⟨true, false, "8"⟩ : HwEnv).vaapiOk = false →
      (pick_encoder (some "fast") none (some vaapiChoice) ⟨true, false, "8"⟩).choice =
        libx264Choice (presetOrDefault (some "fast")) (crfOrDefault none)
          (⟨true, false, "8"⟩ : HwEnv).cpuThreads ∧
      (pick_encoder (some "fast") none (some vaapiChoice) ⟨true, false, "8"⟩).cache
        = some vaapiChoice) :=
  encoder_cache_and_override nvencChoice ⟨true, false, "8"⟩ (some vaapiChoice)
    (some "fast") none (Or.inl (by decide))

-- ══════════════════════════════════════════════════════════════════
-- Progress reporting  (_run_with_progress in processors/ffmpeg.py,
-- magnet_download in processors/leech.py)
-- ══════════════════════════════════════════════════════════════════

/-- One parsed line of the ffmpeg machine-readable progress stream.  A marker
line is progress=continue or progress=end, tagged with the wall-clock time at
which it is read. -/
inductive ProgressLine where
  | outTimeUs (us : ℤ)
  | speed (s : String)
  | marker (t : ℚ)
  | other
  deriving Repr, DecidableEq

/-- Mutable state of the read_progress loop in _run_with_progress. -/
structure ProgState where
  outTimeUs : ℤ
  lastReport : ℚ
  emitted : List ℤ
  deriving Repr, DecidableEq

/-- The percentage computed on a marker line:
min(int(out_time_us / 1000000 / duration * 100), 99). -/
def ffmpeg_pct (duration : ℚ) (us : ℤ) : ℤ :=
  min (ratTrunc ((us : ℚ) / 1000000 / duration * 100)) 99

/-- One iteration of the read_progress loop of _run_with_progress
(processors/ffmpeg.py): out_time_us and speed lines update the accumulators,
and a marker line emits a capped percentage when duration is known and at
least 3 seconds have passed since the last report. -/
def ffmpeg_step (duration : ℚ) (st : ProgState) : ProgressLine → ProgState
  | .outTimeUs v => { st with outTimeUs := v }
  | .speed _ => st
  | .marker t =>
      if 0 < duration ∧ 3 ≤ t - st.lastReport then
        { st with
          lastReport := t
          emitted := st.emitted ++ [ffmpeg_pct duration st.outTimeUs] }
      else st
  | .other => st

/-- The percentages emitted while the ffmpeg process is running. -/
def ffmpeg_emissions (duration : ℚ) (lines : List ProgressLine) : List ℤ :=
  (lines.foldl (ffmpeg_step duration) ⟨0, 0, []⟩).emitted

/-- Shallow embedding of _run_with_progress: the in-flight emissions, then on
a zero exit code one final 100 emission; a non-zero exit code raises instead
(second component false) and emits nothing further. -/
def run_with_progress (duration : ℚ) (lines : List ProgressLine)
    (exitCode : ℤ) : List ℤ × Bool :=
  if exitCode = 0 then (ffmpeg_emissions duration lines ++ [100], true)
  else (ffmpeg_emissions duration lines, false)

/-- One torrent status observation in the magnet_download polling loop:
wall-clock time, engine-reported completion fraction, and whether
handle.is_seed() is now true. -/
structure TorrentSnapshot where
  t : ℚ
  progress : ℚ
  isSeed : Bool
  deriving Repr, DecidableEq

/-- The percentage computed in the magnet loop: int(s.progress * 100), with no
cap. -/
def magnet_pct (progress : ℚ) : ℤ := ratTrunc (progress * 100)

/-- Shallow embedding of the magnet_download polling loop
(processors/leech.py): while the handle is not a seed, every status poll at
least 3 seconds after the previous report emits int(progress * 100); once
is_seed() is true the loop exits and nothing more is emitted. -/
def magnet_emissions : List TorrentSnapshot → ℚ → List ℤ
  | [], _ => []
  | s :: rest, last =>
      if s.isSeed then []
      else if 3 ≤ s.t - last then magnet_pct s.progress :: magnet_emissions rest s.t
      else magnet_emissions rest last

theorem magnet_eval_full_fraction :
    magnet_emissions [⟨10, 1, false⟩, ⟨12, 1, true⟩] 0 = [100] := by
  have h1 : magnet_pct 1 = 100 := by
    norm_num [magnet_pct, ratTrunc]
  simp only [magnet_emissions, h1]
  norm_num

/-- Claim C9 (counterexample): the magnet acquisition loop can emit 100 before
the operation is confirmed complete.  With the engine reporting fraction 1.0
while is_seed() is still false (the finished-but-not-seeding state the loop
itself labels Finishing), the loop emits 100, and after completion nothing is
emitted at all. -/
theorem magnet_emits_100_before_complete :
    magnet_emissions [⟨10, 1, false⟩, ⟨12, 1, true⟩] 0 = [100] ∧
    (100 : ℤ) ∈ magnet_emissions [⟨10, 1, false⟩, ⟨12, 1, true⟩] 0 := by
  refine ⟨magnet_eval_full_fraction, ?_⟩
  rw [magnet_eval_full_fraction]
  exact List.mem_singleton.mpr rfl

theorem ffmpeg_emissions_le_99 (duration : ℚ) (lines : List ProgressLine)
    (st : ProgState) (hst : ∀ p ∈ st.emitted, p ≤ 99) :
    ∀ p ∈ (lines.foldl (ffmpeg_step duration) st).emitted, p ≤ 99 := by
  induction lines generalizing st with
  | nil => exact hst
  | cons line rest ih =>
    refine ih _ ?_
    cases line with
    | outTimeUs v => exact hst
    | speed s => exact hst
    | marker t =>
      simp only [ffmpeg_step]
      split
      · intro p hp
        rcases List.mem_append.mp hp with h | h
        · exact hst p h
        · rw [List.mem_singleton.mp h]
          exact min_le_right _ _
      · exact hst
    | other => exact hst

/-- Claim C9 (amended): the transcode runner caps every in-flight percentage
at 99 and, on success, emits 100 exactly once as the final update, while a
failing run never emits 100; the magnet acquisition loop instead emits
int(fraction*100) uncapped, which reaches 100 while the loop is still running
when the engine reports fraction 1, and it emits nothing after completion. -/
theorem progress_cap_and_final_100 (duration : ℚ) (lines : List ProgressLine)
    (exitCode : ℤ) (s : TorrentSnapshot) (rest : List TorrentSnapshot) (last : ℚ)
    (hseed : s.isSeed = true) :
    (∀ p ∈ ffmpeg_emissions duration lines, p ≤ 99) ∧
    (exitCode = 0 →
      (run_with_progress duration lines exitCode).1.count 100 = 1 ∧
      (run_with_progress duration lines exitCode).1.getLast? = some 100) ∧
    (exitCode ≠ 0 → (100 : ℤ) ∉ (run_with_progress duration lines exitCode).1) ∧
    magnet_emissions (s :: rest) last = [] ∧
    magnet_emissions [⟨10, 1, false⟩, ⟨12, 1, true⟩] 0 = [100] := by
  have hcap : ∀ p ∈ ffmpeg_emissions duration lines, p ≤ 99 :=
    ffmpeg_emissions_le_99 duration lines ⟨0, 0, []⟩ (by simp)
  have hnot100 : (100 : ℤ) ∉ ffmpeg_emissions duration lines := by
    intro h
    exact absurd (hcap 100 h) (by norm_num)
  refine ⟨hcap, ?_, ?_, ?_, magnet_eval_full_fraction⟩
  · intro h0
    rw [run_with_progress, if_pos h0]
    constructor
    · rw [List.count_append, List.count_eq_zero.mpr hnot100]
      rfl
    · exact List.getLast?_concat _
  · intro hne
    rw [run_with_progress, if_neg hne]
    exact hnot100
  · obtain ⟨t0, pr0, sd0⟩ := s
    simp only [magnet_emissions]
    rw [if_pos hseed]

/-- Witness for progress_cap_and_final_100: a 60 second encode whose stream
reports 30 seconds done, exiting successfully, next to a completed torrent
snapshot. -/
theorem progress_cap_and_final_100_witness :
    (∀ p ∈ ffmpeg_emissions 60 [.outTimeUs 30000000, .marker 5], p ≤ 99) ∧
    ((0 : ℤ) = 0 →
      (run_with_progress 60 [.outTimeUs 30000000, .marker 5] 0).1.count 100 = 1 ∧
      (run_with_progress 60 [.outTimeUs 30000000, .marker 5] 0).1.getLast? = some 100) ∧
    ((0 : ℤ) ≠ 0 → (100 : ℤ) ∉ (run_with_progress 60 [.outTimeUs 30000000, .marker 5] 0).1) ∧
    magnet_emissions [⟨20, 1, true⟩] 0 = [] ∧
    magnet_emissions [⟨10, 1, false⟩, ⟨12, 1, true⟩] 0 = [100] :=
  progress_cap_and_final_100 60 [.outTimeUs 30000000, .marker 5] 0 ⟨20, 1, true⟩ [] 0 rfl

-- ══════════════════════════════════════════════════════════════════
-- Direct download  (direct_download, src/bot/processors/leech.py)
-- ══════════════════════════════════════════════════════════════════

/-- Maximum acquired-file size (config.py, 2 GB). -/
def MAX_DOWNLOAD_SIZE_BYTES : ℕ := 2 * 1024 ^ 3

/-- An HTTP response: status code, body bytes (as a function from body index)
and body length. -/
structure RangeResp where
  status : ℕ
  data : ℕ → ℕ
  len : ℕ

/-- The remote resource: probed total size, how the server answers a ranged
GET for inclusive byte range (start, end), and how it answers the plain GET. -/
structure Server where
  total : ℕ
  answerRange : ℕ × ℕ → RangeResp
  answerFull : RangeResp

/-- The freshly created destination file: the pre-allocation loop writes
total zero bytes, so every byte position starts at 0. -/
def preallocated : ℕ → ℕ := fun _ => 0

/-- Write a response body into the file at the given offset: the seek to the
range start followed by sequential writes in _fetch_range. -/
def writeChunk (f : ℕ → ℕ) (offset : ℕ) (resp : RangeResp) : ℕ → ℕ :=
  fun i => if offset ≤ i ∧ i < offset + resp.len then resp.data (i - offset) else f i

/-- Failures of the download layer.  noRange is the ValueError raised when a
server answers a range request with a full 200. -/
inductive DlError where
  | noRange
  | httpError (status : ℕ)
  | tooLarge
  deriving Repr, DecidableEq

/-- chunk_size = max(total // n_chunks, 4 MiB). -/
def chunkSize (total n : ℕ) : ℕ := max (total / n) (4 * 1024 * 1024)

/-- The inclusive byte ranges generated by _parallel_chunks:
(i*cs, min((i+1)*cs - 1, total - 1)) for i below ceil(total / cs). -/
def chunkRanges (total n : ℕ) : List (ℕ × ℕ) :=
  (List.range ((total + chunkSize total n - 1) / chunkSize total n)).map
    fun i => (i * chunkSize total n,
      min ((i + 1) * chunkSize total n - 1) (total - 1))

/-- Fetch every range of the list into its own offset of the file, exactly as
_fetch_range handles one range: a 206 response is written at the range start,
a 200 raises the no-range signal, anything else raises an HTTP error, and any
raised error aborts the whole attempt.  The concurrent batches of the Python
code are modelled sequentially: the ranges are pairwise disjoint (proved
below), so the surviving bytes do not depend on scheduling, and on any
failure the destination file is discarded by the caller. -/
def fetchAll (srv : Server) : List (ℕ × ℕ) → (ℕ → ℕ) → Except DlError (ℕ → ℕ)
  | [], f => .ok f
  | r :: rest, f =>
    if (srv.answerRange r).status = 206 then
      fetchAll srv rest (writeChunk f r.1 (srv.answerRange r))
    else if (srv.answerRange r).status = 200 then .error .noRange
    else .error (.httpError (srv.answerRange r).status)

/-- Shallow embedding of _parallel_chunks: preallocate, then fetch all ranges
(the code uses n_chunks = 8). -/
def parallelChunks (srv : Server) (n : ℕ) : Except DlError (ℕ → ℕ) :=
  fetchAll srv (chunkRanges srv.total n) preallocated

/-- Shallow embedding of _single_stream: one full GET streamed into a freshly
truncated destination file; both 200 and 206 are accepted. -/
def singleStream (srv : Server) : Except DlError (ℕ → ℕ) :=
  if srv.answerFull.status = 200 ∨ srv.answerFull.status = 206 then
    .ok (writeChunk preallocated 0 srv.answerFull)
  else .error (.httpError srv.answerFull.status)

/-- Whether a download attempt succeeded. -/
def dlSucceeded : Except DlError (ℕ → ℕ) → Bool
  | .ok _ => true
  | .error _ => false

/-- Result of one direct_download acquisition: the outcome and how many
parallel attempts and single-stream attempts were started. -/
structure DlResult where
  outcome : Except DlError (ℕ → ℕ)
  parallelAttempts : ℕ
  usedSingleStream : Bool

/-- Shallow embedding of direct_download (src/bot/processors/leech.py) for
hosts without aria2c: after the size probe, the 2 GB cap check; a parallel
attempt only when the probed size exceeds 4 MiB; on any range failure the
partial file is removed and a single full-stream GET runs on a fresh file; no
path leads back into parallel mode. -/
def direct_download (srv : Server) : DlResult :=
  if MAX_DOWNLOAD_SIZE_BYTES < srv.total then
    { outcome := .error .tooLarge, parallelAttempts := 0, usedSingleStream := false }
  else if 4 * 1024 * 1024 < srv.total then
    if dlSucceeded (parallelChunks srv 8) then
      { outcome := parallelChunks srv 8, parallelAttempts := 1, usedSingleStream := false }
    else
      { outcome := singleStream srv, parallelAttempts := 1, usedSingleStream := true }
  else
    { outcome := singleStream srv, parallelAttempts := 0, usedSingleStream := true }

theorem chunkSize_pos (total n : ℕ) : 0 < chunkSize total n :=
  lt_of_lt_of_le (by norm_num) (le_max_right _ _)

theorem lt_numChunks_iff (total n i : ℕ) (ht : 1 ≤ total) :
    i < (total + chunkSize total n - 1) / chunkSize total n ↔
      i * chunkSize total n < total := by
  have h1 : 0 < chunkSize total n := chunkSize_pos total n
  rw [Nat.lt_iff_add_one_le, Nat.le_div_iff_mul_le h1, add_mul, one_mul]
  omega

theorem chunkRanges_cover (total n p : ℕ) (ht : 1 ≤ total) (hp : p < total) :
    ∃ r ∈ chunkRanges total n, r.1 ≤ p ∧ p ≤ r.2 := by
  have h1 : 0 < chunkSize total n := chunkSize_pos total n
  have hdm := Nat.div_add_mod p (chunkSize total n)
  have hml := Nat.mod_lt p h1
  have h4 : p < (p / chunkSize total n + 1) * chunkSize total n := by
    rw [add_mul, one_mul, mul_comm]
    omega
  refine ⟨(p / chunkSize total n * chunkSize total n,
    min ((p / chunkSize total n + 1) * chunkSize total n - 1) (total - 1)), ?_, ?_, ?_⟩
  · simp only [chunkRanges, List.mem_map, List.mem_range]
    refine ⟨p / chunkSize total n, ?_, rfl⟩
    rw [lt_numChunks_iff total n _ ht]
    exact lt_of_le_of_lt (Nat.div_mul_le_self p _) hp
  · exact Nat.div_mul_le_self p _
  · exact le_min (by omega) (by omega)

theorem chunkRanges_pairwise (total n : ℕ) :
    List.Pairwise (fun r1 r2 => r1.2 < r2.1) (chunkRanges total n) := by
  have h1 : 0 < chunkSize total n := chunkSize_pos total n
  rw [chunkRanges, List.pairwise_map]
  refine (List.pairwise_lt_range _).imp ?_
  intro i j hij
  have h2 : (i + 1) * chunkSize total n ≤ j * chunkSize total n :=
    Nat.mul_le_mul_right _ hij
  have h3 : chunkSize total n ≤ (i + 1) * chunkSize total n :=
    Nat.le_mul_of_pos_left _ (by omega)
  have h4 := min_le_left ((i + 1) * chunkSize total n - 1) (total - 1)
  omega

theorem chunkRanges_mem_bounds (total n : ℕ) (r : ℕ × ℕ) (ht : 1 ≤ total)
    (hr : r ∈ chunkRanges total n) : r.1 ≤ r.2 ∧ r.2 < total := by
  have h1 : 0 < chunkSize total n := chunkSize_pos total n
  simp only [chunkRanges, List.mem_map, List.mem_range] at hr
  obtain ⟨i, hik, rfl⟩ := hr
  rw [lt_numChunks_iff total n _ ht] at hik
  have h2 : (i + 1) * chunkSize total n = i * chunkSize total n + chunkSize total n := by
    ring
  have h4 := min_le_right ((i + 1) * chunkSize total n - 1) (total - 1)
  constructor
  · exact le_min (by omega) (by omega)
  · omega

theorem fetchAll_error (srv : Server) (l : List (ℕ × ℕ)) (f : ℕ → ℕ)
    (h : ∃ r ∈ l, (srv.answerRange r).status ≠ 206) :
    ∃ e, fetchAll srv l f = .error e := by
  induction l generalizing f with
  | nil => simp at h
  | cons r rest ih =>
    by_cases h206 : (srv.answerRange r).status = 206
    · rcases h with ⟨r2, hr2, hne⟩
      rcases List.mem_cons.mp hr2 with rfl | hmem
      · exact absurd h206 hne
      · rw [fetchAll, if_pos h206]
        exact ih _ ⟨r2, hmem, hne⟩
    · rw [fetchAll, if_neg h206]
      by_cases h200 : (srv.answerRange r).status = 200
      · rw [if_pos h200]
        exact ⟨.noRange, rfl⟩
      · rw [if_neg h200]
        exact ⟨_, rfl⟩

theorem direct_download_parallel_le_one (s : Server) :
    (direct_download s).parallelAttempts ≤ 1 := by
  unfold direct_download
  split
  · simp
  · split
    · split <;> simp
    · simp

/-- Claim C3: if any range request of a parallel ranged download is answered
with HTTP 200 instead of 206, the acquisition aborts the parallel attempt,
discards the partial output (the single-stream retry starts on a freshly
truncated file), restarts as one full-stream GET, and no acquisition ever
starts more than one parallel attempt. -/
theorem range_200_falls_back_to_single_stream (srv : Server)
    (hcap : srv.total ≤ MAX_DOWNLOAD_SIZE_BYTES)
    (hbig : 4 * 1024 * 1024 < srv.total)
    (h200 : ∃ r ∈ chunkRanges srv.total 8, (srv.answerRange r).status = 200) :
    (direct_download srv).parallelAttempts = 1 ∧
    (direct_download srv).usedSingleStream = true ∧
    (direct_download srv).outcome = singleStream srv ∧
    ∀ s : Server, (direct_download s).parallelAttempts ≤ 1 := by
  obtain ⟨r0, hmem, h200s⟩ := h200
  obtain ⟨e, he⟩ : ∃ e, fetchAll srv (chunkRanges srv.total 8) preallocated = .error e :=
    fetchAll_error srv _ _ ⟨r0, hmem, by rw [h200s]; decide⟩
  have hfail : dlSucceeded (parallelChunks srv 8) = false := by
    rw [parallelChunks, he]
    rfl
  unfold direct_download
  rw [if_neg (not_lt.mpr hcap), if_pos hbig, if_neg (by rw [hfail]; exact Bool.false_ne_true)]
  exact ⟨rfl, rfl, rfl, direct_download_parallel_le_one⟩

/-- A server that ignores Range headers: every request, ranged or not, is
answered 200 with the full 10 MiB body. -/
def ignoringServer : Server :=
  { total := 10485760
    answerRange := fun _ => { status := 200, data := fun i => i % 251, len := 10485760 }
    answerFull := { status := 200, data := fun i => i % 251, len := 10485760 } }

/-- Witness for range_200_falls_back_to_single_stream: against a 10 MiB
resource whose server ignores Range headers, the first generated range
(0, 4194303) is answered 200, parallel is attempted once and the acquisition
falls back to the single full-stream GET. -/
theorem range_200_falls_back_witness :
    (direct_download ignoringServer).parallelAttempts = 1 ∧
    (direct_download ignoringServer).usedSingleStream = true ∧
    (direct_download ignoringServer).outcome = singleStream ignoringServer ∧
    ∀ s : Server, (direct_download s).parallelAttempts ≤ 1 :=
  range_200_falls_back_to_single_stream ignoringServer
    (by norm_num [MAX_DOWNLOAD_SIZE_BYTES, ignoringServer])
    (by norm_num [ignoringServer])
    ⟨(0, 4194303), by decide, rfl⟩

-- ══════════════════════════════════════════════════════════════════
-- Parallel versus single-stream equivalence  (C4)
-- ══════════════════════════════════════════════════════════════════

/-- The honest 206 response to a ranged GET for inclusive range (start, end):
the body bytes start..end of the resource. -/
def honestResp (body : ℕ → ℕ) (r : ℕ × ℕ) : RangeResp :=
  { status := 206, data := fun j => body (r.1 + j), len := r.2 + 1 - r.1 }

/-- A range-supporting server serving the given body honestly. -/
def honestServer (total : ℕ) (body : ℕ → ℕ) : Server :=
  { total := total
    answerRange := honestResp body
    answerFull := { status := 200, data := body, len := total } }

/-- The pure effect of fetching all listed ranges from an honest server:
each response is written at its own offset. -/
def writeRanges (body : ℕ → ℕ) : List (ℕ × ℕ) → (ℕ → ℕ) → (ℕ → ℕ)
  | [], f => f
  | r :: rest, f => writeRanges body rest (writeChunk f r.1 (honestResp body r))

theorem fetchAll_honest (total : ℕ) (body : ℕ → ℕ) (l : List (ℕ × ℕ))
    (f : ℕ → ℕ) :
    fetchAll (honestServer total body) l f = .ok (writeRanges body l f) := by
  induction l generalizing f with
  | nil => rfl
  | cons r rest ih =>
    rw [fetchAll,
      if_pos (show ((honestServer total body).answerRange r).status = 206 from rfl)]
    exact ih _

theorem writeChunk_honest_at (body f : ℕ → ℕ) (s e p : ℕ)
    (h1 : s ≤ p) (h2 : p ≤ e) :
    writeChunk f s (honestResp body (s, e)) p = body p := by
  simp only [writeChunk, honestResp]
  rw [if_pos ⟨h1, by omega⟩]
  congr 1
  omega

theorem writeRanges_preserve (body : ℕ → ℕ) (l : List (ℕ × ℕ)) (f : ℕ → ℕ)
    (p : ℕ) (hf : f p = body p) : writeRanges body l f p = body p := by
  induction l generalizing f with
  | nil => exact hf
  | cons r rest ih =>
    rw [writeRanges]
    apply ih
    by_cases hc : r.1 ≤ p ∧ p < r.1 + (honestResp body r).len
    · simp only [writeChunk, honestResp] at hc ⊢
      rw [if_pos hc]
      congr 1
      omega
    · simp only [writeChunk, honestResp] at hc ⊢
      rw [if_neg hc]
      exact hf

theorem writeRanges_covered (body : ℕ → ℕ) (l : List (ℕ × ℕ)) (f : ℕ → ℕ)
    (p : ℕ) (h : ∃ r ∈ l, r.1 ≤ p ∧ p ≤ r.2) :
    writeRanges body l f p = body p := by
  induction l generalizing f with
  | nil => simp at h
  | cons r rest ih =>
    obtain ⟨r2, hr2, ha, hb⟩ := h
    rw [writeRanges]
    rcases List.mem_cons.mp hr2 with rfl | hmem
    · obtain ⟨s, e⟩ := r2
      exact writeRanges_preserve body rest _ p (writeChunk_honest_at body f s e p ha hb)
    · exact ih _ ⟨r2, hmem, ha, hb⟩

/-- Claim C4: for every total size and chunk count, the ranges generated by
the parallel downloader are pairwise disjoint, lie inside the resource,
exactly cover it, and fetching them from an honest range-supporting server,
each response written at its own offset, produces a file byte-identical on
[0, total) to the single full-stream download of the same resource. -/
theorem parallel_equals_single_stream (total n : ℕ) (body : ℕ → ℕ)
    (hn : 1 ≤ n) (ht : 1 ≤ total) :
    List.Pairwise (fun r1 r2 => r1.2 < r2.1) (chunkRanges total n) ∧
    (∀ r ∈ chunkRanges total n, r.1 ≤ r.2 ∧ r.2 < total) ∧
    (∀ p < total, ∃ r ∈ chunkRanges total n, r.1 ≤ p ∧ p ≤ r.2) ∧
    ∃ f g, parallelChunks (honestServer total body) n = .ok f ∧
      singleStream (honestServer total body) = .ok g ∧
      ∀ p < total, f p = g p := by
  refine ⟨chunkRanges_pairwise total n,
    fun r hr => chunkRanges_mem_bounds total n r ht hr,
    fun p hp => chunkRanges_cover total n p ht hp, ?_⟩
  refine ⟨writeRanges body (chunkRanges total n) preallocated,
    writeChunk preallocated 0 (honestServer total body).answerFull, ?_, ?_, ?_⟩
  · exact fetchAll_honest total body _ _
  · rw [singleStream,
      if_pos (show (honestServer total body).answerFull.status = 200 ∨
        (honestServer total body).answerFull.status = 206 from Or.inl rfl)]
  · intro p hp
    have hpar : writeRanges body (chunkRanges total n) preallocated p = body p :=
      writeRanges_covered body _ _ p (chunkRanges_cover total n p ht hp)
    have hsingle : writeChunk preallocated 0 (honestServer total body).answerFull p
        = body p := by
      simp only [writeChunk, honestServer]
      rw [if_pos ⟨Nat.zero_le p, by omega⟩]
      simp
    rw [hpar, hsingle]

/-- Witness for parallel_equals_single_stream: a 10 MiB resource split into 8
requested chunks (three generated ranges of 4 MiB chunk size). -/
theorem parallel_equals_single_stream_witness :
    List.Pairwise (fun r1 r2 => r1.2 < r2.1) (chunkRanges 10485760 8) ∧
    (∀ r ∈ chunkRanges 10485760 8, r.1 ≤ r.2 ∧ r.2 < 10485760) ∧
    (∀ p < 10485760, ∃ r ∈ chunkRanges 10485760 8, r.1 ≤ p ∧ p ≤ r.2) ∧
    ∃ f g, parallelChunks (honestServer 10485760 (fun i => i % 251)) 8 = .ok f ∧
      singleStream (honestServer 10485760 (fun i => i % 251)) = .ok g ∧
      ∀ p < 10485760, f p = g p :=
  parallel_equals_single_stream 10485760 8 (fun i => i % 251) (by norm_num) (by norm_num)

end TgConv
